import Mathlib

/-!
Verification of the Bronze-tier personal-AI-employee scripts:
`rotate_logs.py` (log rotation engine) and `file_watcher.py`
(inbox watcher and task emitter).  Documents are modelled as lists of
lines (strings without their trailing newline); the filesystem effects
of a rotation run are modelled as the collection of writes the run
performs.
-/

/-- Model of Python's `pat in s` substring test. -/
def infixOf : List Char → List Char → Bool
  | pat, [] => pat.isEmpty
  | pat, c :: rest => pat.isPrefixOf (c :: rest) || infixOf pat rest

/-- `pyIn pat s` models the Python expression `pat in s` on strings. -/
def pyIn (pat s : String) : Bool := infixOf pat.toList s.toList

/-- Models Python's `s.startswith(pre)`. -/
def pyStartsWith (s pre : String) : Bool := pre.toList.isPrefixOf s.toList

/-- Models Python's lexicographic string comparison `a < b`
(code-point order, as in CPython). -/
def lexLt : List Char → List Char → Bool
  | [], [] => false
  | [], _ :: _ => true
  | _ :: _, [] => false
  | a :: as, b :: bs =>
    if a.toNat < b.toNat then true
    else if b.toNat < a.toNat then false
    else lexLt as bs

/-- `pyStrLt a b` models the Python expression `a < b` on strings. -/
def pyStrLt (a b : String) : Bool := lexLt a.toList b.toList

/-- Models Python's `s.replace(old, new)` for single-character `old` and
`new`, where it is exactly a character map. -/
def pyReplaceChar (s : String) (old new : Char) : String :=
  String.mk (s.toList.map (fun c => if c = old then new else c))

namespace RotateLogs

/-- Matches the regex `\d{4}-\d{2}-\d{2}` at the head of a character list,
returning the matched ten characters. -/
def matchDateAt : List Char → Option String
  | c1 :: c2 :: c3 :: c4 :: h1 :: c5 :: c6 :: h2 :: c7 :: c8 :: _ =>
    if c1.isDigit && c2.isDigit && c3.isDigit && c4.isDigit && h1 == '-'
        && c5.isDigit && c6.isDigit && h2 == '-' && c7.isDigit && c8.isDigit then
      some (String.mk [c1, c2, c3, c4, h1, c5, c6, h2, c7, c8])
    else none
  | _ => none

/-- Leftmost match of `\d{4}-\d{2}-\d{2}`, as `re.search` finds it. -/
def findDate : List Char → Option String
  | [] => none
  | c :: rest =>
    match matchDateAt (c :: rest) with
    | some d => some d
    | none => findDate rest

/-- Embeds `parse_date_from_header`: extracts the first `YYYY-MM-DD`
token from a line, or `none`. -/
def parse_date_from_header (line : String) : Option String := findDate line.toList

/-- The partition map `entries_by_date`: an insertion-ordered association
list from date keys to the lines of that date's bucket
(Python `defaultdict(list)` preserves insertion order). -/
abbrev EntryMap := List (String × List String)

/-- The key list of a partition map, in insertion order. -/
def keysOf (m : EntryMap) : List String := m.map Prod.fst

/-- Models `entries_by_date[d].extend(ls)` on a `defaultdict(list)`:
an existing key is extended in place, a fresh key is appended at the end. -/
def extendEntry (m : EntryMap) (d : String) (ls : List String) : EntryMap :=
  if (keysOf m).contains d then
    m.map (fun p => if p.1 = d then (p.1, p.2 ++ ls) else p)
  else m ++ [(d, ls)]

/-- The three states of the line scanner in `read_system_log`. -/
inductive Sect
  | header
  | activity
  | footer
deriving DecidableEq, Repr

/-- The loop state of `read_system_log`:
`current_section`, `current_date`, `current_entry`, and the three
accumulators `header_lines`, `entries_by_date`, `footer_lines`. -/
structure ParseState where
  sec : Sect
  curDate : Option String
  curEntry : List String
  headerLines : List String
  entries : EntryMap
  footerLines : List String
deriving DecidableEq, Repr

/-- The flush `if current_date and current_entry:
entries_by_date[current_date].extend(current_entry)` (Python truthiness:
`current_date` must be a non-`None`, nonempty string and `current_entry`
a nonempty list). -/
def savePending (s : ParseState) : EntryMap :=
  match s.curDate with
  | some d => if d ≠ "" ∧ s.curEntry ≠ [] then extendEntry s.entries d s.curEntry else s.entries
  | none => s.entries

/-- One iteration of the `for line in lines` loop of `read_system_log`. -/
def parseStep (s : ParseState) (line : String) : ParseState :=
  if pyIn "## Activity Log" line then
    { s with sec := .activity }
  else if s.sec = .activity ∧ (pyIn "## Log Entry Template" line ∨ pyIn "## Notes" line) then
    { s with entries := savePending s, sec := .footer,
             footerLines := s.footerLines ++ [line] }
  else
    match s.sec with
    | .header => { s with headerLines := s.headerLines ++ [line] }
    | .activity =>
      if pyStartsWith line "###" then
        { s with entries := savePending s,
                 curDate := parse_date_from_header line,
                 curEntry := [line] }
      else
        match s.curDate with
        | some d => if d ≠ "" then { s with curEntry := s.curEntry ++ [line] } else s
        | none => s
    | .footer => { s with footerLines := s.footerLines ++ [line] }

/-- The initial loop state of `read_system_log`. -/
def initState : ParseState :=
  { sec := .header, curDate := none, curEntry := [], headerLines := [],
    entries := [], footerLines := [] }

/-- Embeds `read_system_log` on an already-read document: runs the line
scanner over all lines, then performs the final "save final entry" flush.
Returns `(header_lines, entries_by_date, footer_lines)`. -/
def read_system_log (lines : List String) : List String × EntryMap × List String :=
  let s := lines.foldl parseStep initState
  (s.headerLines, savePending s, s.footerLines)

/-- The guard `if date and date < today` of `archive_old_entries`. -/
def isOldDate (d today : String) : Bool := !(d == "") && pyStrLt d today

/-- The fixed preamble of an archive file, split into lines. -/
def archivePreamble (date today : String) : List String :=
  ["# System Log Archive - " ++ date, "",
   "> **Archived from:** System_Log.md",
   "> **Archive date:** " ++ today, "",
   "---", ""]

/-- The full content of one archive file: preamble followed by the
bucket's lines with lines starting with `###` filtered out. -/
def archiveFile (date today : String) (entries : List String) : List String :=
  archivePreamble date today ++ entries.filter (fun l => !pyStartsWith l "###")

/-- One iteration of the `for date, entries in entries_by_date.items()`
loop of `archive_old_entries`: a date passing the `date and date < today`
guard has its archive file written and the counter bumped. -/
def archStep (today : String) (acc : List (String × List String) × Nat)
    (p : String × List String) : List (String × List String) × Nat :=
  if isOldDate p.1 today then
    (acc.1 ++ [(p.1, archiveFile p.1 today p.2)], acc.2 + 1)
  else acc

/-- Embeds `archive_old_entries`: walks the partition map in insertion
order, writing one archive file per date older than today.
Returns the list of written archive files and `archived_count`. -/
def archive_old_entries (m : EntryMap) (today : String) :
    List (String × List String) × Nat :=
  m.foldl (archStep today) ([], 0)

/-- The date keys of the archive files produced by `archive_old_entries`. -/
def archivedDates (m : EntryMap) (today : String) : List String :=
  (archive_old_entries m today).1.map Prod.fst

/-- The rotation-status block injected by `write_rotated_log`,
split into lines. -/
def statusBlock (today now : String) (archivedCount : Nat) : List String :=
  ["## Log Rotation Status", "",
   "- **Last Rotation:** " ++ today ++ " at " ++ now,
   "- **Entries Archived:** " ++ toString archivedCount ++ " date(s)",
   "- **Archive Location:** [Logs/](Logs/) folder",
   "- **Retention:** All logs permanently archived", "",
   "📂 [View Archived Logs](Logs/)", "",
   "---", ""]

/-- The activity section `write_rotated_log` emits: the fixed marker and
sub-header, then today's bucket lines with `###` lines filtered out, or
the no-activity placeholder, then the closing rule. -/
def rewriteActivity (todayEntries : List String) : List String :=
  ["## Activity Log", "", "### Today's Activity", ""] ++
  (if todayEntries.isEmpty then ["*No activity logged today.*", ""]
   else todayEntries.filter (fun l => !pyStartsWith l "###")) ++
  ["---", ""]

/-- Embeds `write_rotated_log`: the full replacement document, as lines. -/
def write_rotated_log (headerLines todayEntries footerLines : List String)
    (archivedCount : Nat) (today now : String) : List String :=
  headerLines ++ statusBlock today now archivedCount ++
    rewriteActivity todayEntries ++ footerLines

/-- Embeds `create_backup`: reads the source document and writes its
content to the backup path; if the source cannot be read the backup is
not written (`None` is returned with a warning). -/
def create_backup (src : Option (List String)) : Option (List String) := src

/-- The filesystem writes performed by one rotation run:
the backup content (if a backup file was written), the archive files
written (date key and content), the rewritten source document (if the
rewrite was reached), and whether the run completed (`ok = false` is the
"Failed to read System_Log.md. Aborting." early return). -/
structure RunResult where
  backupContent : Option (List String)
  archives : List (String × List String)
  rewritten : Option (List String)
  ok : Bool
deriving DecidableEq, Repr

/-- Embeds `rotate_logs`: backup, parse, archive, rewrite.  `src` is the
readable content of `System_Log.md` (`none` when the read fails), `today`
is `get_today_date()` and `now` the wall-clock time used in the status
block. -/
def rotate_logs (src : Option (List String)) (today now : String) : RunResult :=
  let backup := create_backup src
  match src with
  | none => { backupContent := backup, archives := [], rewritten := none, ok := false }
  | some lines =>
    let parsed := read_system_log lines
    let arch := archive_old_entries parsed.2.1 today
    let todayEntries := (parsed.2.1.lookup today).getD []
    { backupContent := backup,
      archives := arch.1,
      rewritten := some (write_rotated_log parsed.1 todayEntries parsed.2.2 arch.2 today now),
      ok := true }

/-- Reassembles the three regions produced by `read_system_log`:
header lines, the activity buckets in insertion (original) order, and
footer lines. -/
def reassemble (lines : List String) : List String :=
  let p := read_system_log lines
  p.1 ++ (p.2.1.map Prod.snd).flatten ++ p.2.2

/-- Removes one date key (and its bucket) from a partition map. -/
def removeKey (d : String) (m : EntryMap) : EntryMap :=
  m.filter (fun p => !(p.1 == d))

/-- A line that may appear inside a date bucket without disturbing the
scanner: it neither starts a new sub-header nor matches any of the
section markers. -/
def goodBodyLine (l : String) : Bool :=
  !pyStartsWith l "###" && !pyIn "## Activity Log" l &&
  !pyIn "## Log Entry Template" l && !pyIn "## Notes" l

/-- A well-formed dated sub-header line: starts with `###`, carries a
`YYYY-MM-DD` token, and matches no section marker. -/
def goodHeaderLine (h : String) : Bool :=
  pyStartsWith h "###" && (parse_date_from_header h).isSome &&
  !pyIn "## Activity Log" h && !pyIn "## Log Entry Template" h && !pyIn "## Notes" h

/-- The lines of an activity section given as (sub-header, body). -/
def secLines (p : String × List String) : List String := p.1 :: p.2

/-- The date key of an activity section given as (sub-header, body). -/
def secDate (p : String × List String) : String :=
  (parse_date_from_header p.1).getD ""

/-- All sections of the list are well formed. -/
def sectionsOK (ss : List (String × List String)) : Bool :=
  ss.all (fun p => goodHeaderLine p.1 && p.2.all goodBodyLine)

/-- A document whose only activity section is today's
(today = 2026-02-12). -/
def demoTodayOnlyDoc : List String :=
  ["# Log", "", "## Activity Log", "", "### 2026-02-12", "- did a thing"]

/-- The rewritten document produced by the first rotation run on
`demoTodayOnlyDoc`. -/
def demoFirstRewrite : List String :=
  (rotate_logs (some demoTodayOnlyDoc) "2026-02-12" "12:00:00").rewritten.getD []

/-- The rewritten document produced by a second rotation run, on the
same day, over the first run's output. -/
def demoSecondRewrite : List String :=
  (rotate_logs (some demoFirstRewrite) "2026-02-12" "12:00:00").rewritten.getD []

/-- A document with activity sections dated 2026-02-10, 2026-02-11 and
2026-02-12. -/
def demoThreeDayDoc : List String :=
  ["# System Log", "", "## Activity Log", "",
   "### 2026-02-10", "- a1", "- a2", "",
   "### 2026-02-11", "- b1", "",
   "### 2026-02-12", "- c1", ""]

/-- A partition map holding a single future-dated bucket
(relative to today = 2026-02-12). -/
def demoFutureMap : EntryMap :=
  [("2099-01-01", ["### 2099-01-01", "- future"])]

/-- A document that reaches the FOOTER state and then contains a line
matching the activity marker again. -/
def demoFooterReopenDoc : List String :=
  ["## Activity Log", "## Notes", "## Activity Log", "### 2026-02-12", "x"]

/-- A minimal document exercising the parse-reassemble round trip. -/
def demoRoundTripDoc : List String :=
  ["## Activity Log", "### 2026-02-12", "x"]

end RotateLogs

namespace FileWatcher

/-- The sanitized name `filename.replace(" ", "_").replace(".", "_")`
computed by `create_task_file`. -/
def safeName (filename : String) : String :=
  pyReplaceChar (pyReplaceChar filename ' ' '_') '.' '_'

/-- The destination task filename `task_<sanitized>.md`. -/
def task_filename (filename : String) : String :=
  "task_" ++ safeName filename ++ ".md"

/-- The destination path `os.path.join(NEEDS_ACTION_FOLDER, task_filename)`,
with the needs-action folder rendered as a relative prefix. -/
def taskPath (filename : String) : String :=
  "Needs_Action/" ++ task_filename filename

/-- The levels of the watcher's logger that the embedded functions use. -/
inductive LogLevel
  | info
  | warning
  | error
deriving DecidableEq, Repr

/-- One record written through the watcher's logger. -/
structure LogEvent where
  level : LogLevel
  msg : String
deriving DecidableEq, Repr

/-- A filesystem fragment: an association of paths to file contents. -/
abbrev FS := List (String × String)

/-- The task file body written by `create_task_file` (the `task_content`
f-string), as a single string.  `fileSizeBytes` and `fileSizeHuman` are
the values resolved by the `os.path.getsize` / `get_human_readable_size`
step; human-readable size formatting uses floating point and is supplied
by the environment. -/
def task_content (filename : String) (fileSizeBytes : Nat)
    (fileSizeHuman timestamp : String) : String :=
  String.intercalate "\n"
    ["---",
     "type: file_review",
     "status: pending",
     "priority: normal",
     "source: Inbox",
     "filename: " ++ filename,
     "file_size: " ++ toString fileSizeBytes,
     "created_at: " ++ timestamp,
     "tags: []",
     "---",
     "",
     "# Task: Review File - " ++ filename,
     "",
     "## File Information",
     "- **Source**: Inbox",
     "- **Size**: " ++ fileSizeHuman,
     "- **Detected**: " ++ timestamp,
     "",
     "## Required Actions",
     "- [ ] Review the file content",
     "- [ ] Decide what action is needed",
     "- [ ] Tag appropriately (urgent/invoice/client/personal)",
     "- [ ] Move to Done when complete",
     "",
     "## Notes",
     "(Add your observations here)"] ++ "\n"

/-- Embeds `create_task_file`.  `fs` is the relevant filesystem
fragment; `timestamp`, `fileSizeBytes`, `fileSizeHuman` are the values
the environment supplies (`get_current_timestamp`, size probing);
`writeOk` tells whether the final write raises (its two except branches,
permission and generic, both log an error and return `False`).
Returns the filesystem after the call, the boolean result, and the log
records emitted through the logger. -/
def create_task_file (fs : FS) (filename timestamp : String)
    (fileSizeBytes : Nat) (fileSizeHuman : String) (writeOk : String → Bool) :
    FS × Bool × List LogEvent :=
  let tf := task_filename filename
  let path := taskPath filename
  if (fs.lookup path).isSome then
    (fs, false, [{ level := .warning, msg := "Task already exists: " ++ tf }])
  else if writeOk path then
    ((path, task_content filename fileSizeBytes fileSizeHuman timestamp) :: fs, true,
     [{ level := .info,
        msg := "Created task: " ++ tf ++ " for " ++ filename ++ " (" ++ fileSizeHuman ++ ")" }])
  else
    (fs, false, [{ level := .error, msg := "Error creating task file " ++ tf }])

/-- One iteration of the `for filename in current_files` loop of
`check_for_new_files`: hidden files are skipped, known files are
skipped, and a new file has a task emitted for it and is added to the
seen-set whether or not the emission succeeded. -/
def processOne (timestamp : String) (sizeBytes : String → Nat)
    (sizeHuman : String → String) (writeOk : String → Bool)
    (acc : List String × FS) (filename : String) : List String × FS :=
  if pyStartsWith filename "." then acc
  else if acc.1.contains filename then acc
  else
    let r := create_task_file acc.2 filename timestamp (sizeBytes filename)
      (sizeHuman filename) writeOk
    if r.2.1 then (acc.1.insert filename, r.1)
    else (acc.1.insert filename, r.1)

/-- Embeds `check_for_new_files`: runs the per-file loop over the
current inbox listing, threading the seen-set (`processed_files`) and
the filesystem. -/
def check_for_new_files (currentFiles : List String)
    (processed : List String) (fs : FS) (timestamp : String)
    (sizeBytes : String → Nat) (sizeHuman : String → String)
    (writeOk : String → Bool) : List String × FS :=
  currentFiles.foldl (processOne timestamp sizeBytes sizeHuman writeOk)
    (processed, fs)

/-- Embeds the initial scan of `main`: every non-hidden filename of the
initial listing is added to the seen-set, without emitting tasks. -/
def initial_scan (initialFiles : List String) (processed : List String) :
    List String :=
  initialFiles.foldl
    (fun acc f => if pyStartsWith f "." then acc else acc.insert f) processed

end FileWatcher

/-! ## Theorems -/

namespace RotateLogs

/-- C4: if the log document cannot be opened for reading, the rotation
run aborts and reports failure, writing no backup file, no archive file
and no rewrite of the source document. -/
theorem unreadable_source_aborts_without_writes (today now : String) :
    rotate_logs none today now =
      { backupContent := none, archives := [], rewritten := none, ok := false } := rfl

/-- C1 (failing run): on a document whose only activity section is
today's, both same-day rotation runs archive zero dates, but the second
run's rewrite loses today's entry line and degenerates to the
no-activity placeholder, so its activity section differs from the first
run's beyond the refreshed timestamp. -/
theorem second_rotation_drops_today_entries :
    (rotate_logs (some demoTodayOnlyDoc) "2026-02-12" "12:00:00").archives = [] ∧
    (rotate_logs (some demoFirstRewrite) "2026-02-12" "12:00:00").archives = [] ∧
    demoFirstRewrite.contains "- did a thing" = true ∧
    demoSecondRewrite.contains "- did a thing" = false ∧
    demoSecondRewrite.contains "*No activity logged today.*" = true := by decide

/-- C3: on the three-day document with today = 2026-02-12, rotation
writes archives for 2026-02-10 and 2026-02-11 holding exactly those
buckets' lines with the sub-header filtered out after the fixed
preamble, and the rewritten document's activity section holds only the
2026-02-12 bucket's lines. -/
theorem rotation_concrete_partition :
    rotate_logs (some demoThreeDayDoc) "2026-02-12" "09:00:00" =
      { backupContent := some demoThreeDayDoc,
        archives :=
          [("2026-02-10",
            ["# System Log Archive - 2026-02-10", "",
             "> **Archived from:** System_Log.md",
             "> **Archive date:** 2026-02-12", "", "---", "",
             "- a1", "- a2", ""]),
           ("2026-02-11",
            ["# System Log Archive - 2026-02-11", "",
             "> **Archived from:** System_Log.md",
             "> **Archive date:** 2026-02-12", "", "---", "",
             "- b1", ""])],
        rewritten := some
          (["# System Log", "",
            "## Log Rotation Status", "",
            "- **Last Rotation:** 2026-02-12 at 09:00:00",
            "- **Entries Archived:** 2 date(s)",
            "- **Archive Location:** [Logs/](Logs/) folder",
            "- **Retention:** All logs permanently archived", "",
            "📂 [View Archived Logs](Logs/)", "",
            "---", "",
            "## Activity Log", "", "### Today's Activity", "",
            "- c1", "",
            "---", ""]),
        ok := true } := by decide

/-- C2 counterexample: a future-dated bucket (2099-01-01, today
2026-02-12) is not archived — the archive step emits no file and counts
zero dates, contradicting the claim that not-today dates are archived. -/
theorem future_date_not_archived_cex :
    archivedDates demoFutureMap "2026-02-12" = [] ∧
    (archive_old_entries demoFutureMap "2026-02-12").2 = 0 := by decide

/-- C7 counterexample: after the parser reaches FOOTER via the
"## Notes" line, a later line containing "## Activity Log" is not
consumed into the footer buffer — the footer holds only "## Notes" and
the subsequent dated section is parsed into the partition map again. -/
theorem footer_not_terminal_cex :
    (read_system_log demoFooterReopenDoc).2.2 = ["## Notes"] ∧
    (read_system_log demoFooterReopenDoc).2.1 =
      [("2026-02-12", ["### 2026-02-12", "x"])] := by decide

/-- C8 counterexample: on a document with no rotation-status block,
concatenating parsed header, buckets and footer loses the
"## Activity Log" marker line, so the round trip is not the identity. -/
theorem parse_not_lossless_cex :
    reassemble demoRoundTripDoc = ["### 2026-02-12", "x"] ∧
    reassemble demoRoundTripDoc ≠ demoRoundTripDoc := by decide

end RotateLogs

lemma lexLt_irrefl (a : List Char) : lexLt a a = false := by
  induction a with
  | nil => rfl
  | cons x xs ih =>
    rw [lexLt, if_neg (Nat.lt_irrefl _), if_neg (Nat.lt_irrefl _)]
    exact ih

lemma lexLt_asymm : ∀ a b : List Char, lexLt a b = true → lexLt b a = false := by
  intro a
  induction a with
  | nil =>
    intro b h
    cases b with
    | nil => simp [lexLt] at h
    | cons y ys => rfl
  | cons x xs ih =>
    intro b h
    cases b with
    | nil => simp [lexLt] at h
    | cons y ys =>
      by_cases hxy : x.toNat < y.toNat
      · have hyx : ¬ y.toNat < x.toNat := Nat.lt_asymm hxy
        simp [lexLt, hxy, hyx]
      · by_cases hyx : y.toNat < x.toNat
        · simp [lexLt, hxy, hyx] at h
        · simp only [lexLt, if_neg hxy, if_neg hyx] at h ⊢
          exact ih ys h

lemma pyStrLt_asymm (a b : String) (h : pyStrLt a b = true) : pyStrLt b a = false :=
  lexLt_asymm _ _ h

lemma pyStrLt_ne (a b : String) (h : pyStrLt a b = true) : a ≠ b := by
  intro he
  subst he
  rw [pyStrLt, lexLt_irrefl] at h
  exact Bool.false_ne_true h

namespace FileWatcher

lemma replace_space_dot_fuse (l : List Char) :
    (l.map (fun c => if c = ' ' then '_' else c)).map (fun c => if c = '.' then '_' else c) =
    l.map (fun c => if c = ' ' ∨ c = '.' then '_' else c) := by
  induction l with
  | nil => rfl
  | cons c cs ih =>
    simp only [List.map_cons, ih]
    congr 1
    by_cases h1 : c = ' '
    · subst h1; simp
    · by_cases h2 : c = '.' <;> simp [h1, h2]

/-- C9: the destination task name is the deterministic image of the
source filename under the substitution that sends every space and every
dot to an underscore, wrapped as `task_<sanitized>.md`; in particular
"My Invoice.pdf" maps to "task_My_Invoice_pdf.md". -/
theorem task_filename_sanitization :
    (∀ f : String, task_filename f =
      "task_" ++ String.mk (f.toList.map (fun c => if c = ' ' ∨ c = '.' then '_' else c)) ++ ".md") ∧
    task_filename "My Invoice.pdf" = "task_My_Invoice_pdf.md" := by
  constructor
  · intro f
    show "task_" ++ String.mk ((f.toList.map (fun c => if c = ' ' then '_' else c)).map
      (fun c => if c = '.' then '_' else c)) ++ ".md" = _
    rw [replace_space_dot_fuse]
  · decide

end FileWatcher
namespace RotateLogs

lemma archive_foldl (today : String) : ∀ (m : EntryMap) (acc : List (String × List String) × Nat),
    m.foldl (archStep today) acc =
      (acc.1 ++ (m.filter (fun p => isOldDate p.1 today)).map
          (fun p => (p.1, archiveFile p.1 today p.2)),
       acc.2 + (m.filter (fun p => isOldDate p.1 today)).length) := by
  intro m
  induction m with
  | nil => intro acc; simp
  | cons p ps ih =>
    intro acc
    rw [List.foldl_cons, ih]
    cases hp : isOldDate p.1 today with
    | true =>
      simp only [archStep, hp, if_pos, List.filter_cons, List.map_cons, List.length_cons]
      refine congrArg₂ Prod.mk ?_ ?_
      · rw [List.append_assoc, List.singleton_append]
      · omega
    | false =>
      simp [archStep, List.filter_cons, hp]

lemma archive_keys_length (today : String) : ∀ m : EntryMap,
    ((m.filter (fun p => isOldDate p.1 today)).map
        (fun p => (p.1, archiveFile p.1 today p.2))).map Prod.fst
      = (m.map Prod.fst).filter (fun d => isOldDate d today) ∧
    (m.filter (fun p => isOldDate p.1 today)).length
      = ((m.map Prod.fst).filter (fun d => isOldDate d today)).length := by
  intro m
  induction m with
  | nil => exact ⟨rfl, rfl⟩
  | cons p ps ih =>
    cases hp : isOldDate p.1 today with
    | true => simp [List.filter_cons, hp, ih.1, ih.2]
    | false => simp [List.filter_cons, hp, ih.1, ih.2]

/-- C2 (amended): the archive step archives exactly the date keys
satisfying the single lexical inequality `date < today` (with the Python
truthiness guard on the key), in document order, and the reported count
is the number of such keys. -/
theorem archive_partition_single_inequality (m : EntryMap) (today : String) :
    archivedDates m today = (keysOf m).filter (fun d => isOldDate d today) ∧
    (archive_old_entries m today).2
      = ((keysOf m).filter (fun d => isOldDate d today)).length := by
  constructor
  · rw [archivedDates, archive_old_entries, archive_foldl]
    simpa [keysOf] using (archive_keys_length today m).1
  · rw [archive_old_entries, archive_foldl]
    simpa [keysOf] using (archive_keys_length today m).2

lemma filter_old_filter_ne (today d : String) (hnotold : isOldDate d today = false) :
    ∀ m : EntryMap, (m.filter (fun p => !(p.1 == d))).filter (fun p => isOldDate p.1 today)
        = m.filter (fun p => isOldDate p.1 today) := by
  intro m
  induction m with
  | nil => rfl
  | cons p ps ih =>
    cases hpd : (p.1 == d) with
    | true =>
      have hp1 : p.1 = d := eq_of_beq hpd
      simp [List.filter_cons, hpd, hp1, hnotold, ih]
    | false =>
      cases hpo : isOldDate p.1 today with
      | true => simp [List.filter_cons, hpd, hpo, ih]
      | false => simp [List.filter_cons, hpd, hpo, ih]

lemma lookup_filter_ne (today d : String) (hne : today ≠ d) :
    ∀ m : EntryMap, (m.filter (fun p => !(p.1 == d))).lookup today = m.lookup today := by
  intro m
  induction m with
  | nil => rfl
  | cons p ps ih =>
    obtain ⟨k, v⟩ := p
    cases hpd : (k == d) with
    | true =>
      have hp1 : k = d := eq_of_beq hpd
      have ht : (today == k) = false := by
        rw [hp1]
        exact beq_eq_false_iff_ne.mpr hne
      simp [List.filter_cons, hpd, List.lookup_cons, ht, ih]
    | false =>
      cases ht : (today == k) with
      | true => simp [List.filter_cons, hpd, List.lookup_cons, ht]
      | false => simp [List.filter_cons, hpd, List.lookup_cons, ht, ih]

/-- C10: a future-dated bucket is dropped from every output of the
rotation run: its date is never among the archived dates, and removing
it from the partition map changes neither the archive files written nor
the bucket the rewrite retains for today. -/
theorem future_dated_bucket_dropped (m : EntryMap) (today d : String)
    (hd : pyStrLt today d = true) :
    d ∉ archivedDates m today ∧
    archive_old_entries (removeKey d m) today = archive_old_entries m today ∧
    ((removeKey d m).lookup today).getD [] = (m.lookup today).getD [] := by
  have hnotold : isOldDate d today = false := by
    rw [isOldDate, pyStrLt_asymm _ _ hd, Bool.and_false]
  refine ⟨?_, ?_, ?_⟩
  · intro hmem
    rw [archivedDates, archive_old_entries, archive_foldl] at hmem
    simp only [List.nil_append] at hmem
    rw [(archive_keys_length today m).1, List.mem_filter] at hmem
    rw [hnotold] at hmem
    exact Bool.false_ne_true hmem.2
  · rw [archive_old_entries, archive_old_entries, archive_foldl, archive_foldl, removeKey,
      filter_old_filter_ne today d hnotold m]
  · rw [removeKey, lookup_filter_ne today d (pyStrLt_ne _ _ hd) m]

/-- C10 witness: the future-dated demo bucket with today = 2026-02-12. -/
theorem future_dated_bucket_dropped_witness :
    pyStrLt "2026-02-12" "2099-01-01" = true ∧
    ("2099-01-01" ∉ archivedDates demoFutureMap "2026-02-12" ∧
     archive_old_entries (removeKey "2099-01-01" demoFutureMap) "2026-02-12"
       = archive_old_entries demoFutureMap "2026-02-12" ∧
     ((removeKey "2099-01-01" demoFutureMap).lookup "2026-02-12").getD []
       = (demoFutureMap.lookup "2026-02-12").getD []) :=
  ⟨by decide, future_dated_bucket_dropped demoFutureMap "2026-02-12" "2099-01-01" (by decide)⟩

end RotateLogs
namespace RotateLogs

/-- C7 (amended): in the FOOTER state, a line not containing the
activity marker is appended verbatim to the footer buffer and nothing
else changes; but a line containing "## Activity Log" switches the
scanner back to ACTIVITY (and is itself dropped), so FOOTER is not
terminal. -/
theorem footer_step_characterization (s : ParseState) (line : String)
    (hs : s.sec = Sect.footer) :
    (pyIn "## Activity Log" line = true →
      parseStep s line = { s with sec := Sect.activity }) ∧
    (pyIn "## Activity Log" line = false →
      parseStep s line = { s with footerLines := s.footerLines ++ [line] }) := by
  constructor
  · intro h
    simp [parseStep, h]
  · intro h
    simp [parseStep, h, hs]

/-- C7 witness: a concrete FOOTER state consuming the line "tail". -/
theorem footer_step_characterization_witness :
    (⟨Sect.footer, none, [], [], [], ["## Notes"]⟩ : ParseState).sec = Sect.footer ∧
    pyIn "## Activity Log" "tail" = false ∧
    parseStep ⟨Sect.footer, none, [], [], [], ["## Notes"]⟩ "tail"
      = ⟨Sect.footer, none, [], [], [], ["## Notes", "tail"]⟩ :=
  ⟨rfl, rfl,
    (footer_step_characterization ⟨Sect.footer, none, [], [], [], ["## Notes"]⟩ "tail" rfl).2 rfl⟩

end RotateLogs
namespace FileWatcher

lemma lookup_none_countP (k : String) :
    ∀ fs : FS, fs.lookup k = none → fs.countP (fun p => p.1 == k) = 0 := by
  intro fs
  induction fs with
  | nil => intro _; rfl
  | cons p ps ih =>
    obtain ⟨a, b⟩ := p
    intro h
    rw [List.lookup_cons] at h
    cases hk : (k == a) with
    | true => rw [hk] at h; cases h
    | false =>
      rw [hk] at h
      rw [List.countP_cons]
      have ha : (a == k) = false := by
        refine beq_eq_false_iff_ne.mpr (fun he => ?_)
        exact (beq_eq_false_iff_ne.mp hk) he.symm
      simp [ha, ih h]

/-- C5: emitting a task twice for the same filename creates exactly one
task file; the second invocation finds the destination present, leaves
the filesystem untouched, returns `False`, and reports the skip as a
warning ("Task already exists"), not an error. -/
theorem duplicate_task_emission_skips
    (fs : FS) (f ts1 ts2 : String) (b1 b2 : Nat) (h1 h2 : String)
    (wOk : String → Bool)
    (hnew : fs.lookup (taskPath f) = none)
    (hw : wOk (taskPath f) = true) :
    (create_task_file fs f ts1 b1 h1 wOk).2.1 = true ∧
    (create_task_file (create_task_file fs f ts1 b1 h1 wOk).1 f ts2 b2 h2 wOk).1
      = (create_task_file fs f ts1 b1 h1 wOk).1 ∧
    (create_task_file (create_task_file fs f ts1 b1 h1 wOk).1 f ts2 b2 h2 wOk).2.1 = false ∧
    (create_task_file (create_task_file fs f ts1 b1 h1 wOk).1 f ts2 b2 h2 wOk).2.2
      = [{ level := .warning, msg := "Task already exists: " ++ task_filename f }] ∧
    (create_task_file (create_task_file fs f ts1 b1 h1 wOk).1 f ts2 b2 h2 wOk).1.countP
        (fun p => p.1 == taskPath f) = 1 := by
  have hfs1 : (create_task_file fs f ts1 b1 h1 wOk).1
      = (taskPath f, task_content f b1 h1 ts1) :: fs := by
    simp [create_task_file, hnew, hw]
  have h2nd : create_task_file ((taskPath f, task_content f b1 h1 ts1) :: fs) f ts2 b2 h2 wOk
      = ((taskPath f, task_content f b1 h1 ts1) :: fs, false,
         [{ level := .warning, msg := "Task already exists: " ++ task_filename f }]) := by
    simp [create_task_file]
  refine ⟨by simp [create_task_file, hnew, hw], ?_, ?_, ?_, ?_⟩
  · rw [hfs1, h2nd]
  · rw [hfs1, h2nd]
  · rw [hfs1, h2nd]
  · rw [hfs1, h2nd]
    simp only [List.countP_cons, beq_self_eq_true, if_pos, lookup_none_countP _ fs hnew]

/-- C5 witness: a fresh filesystem and the filename "My Invoice.pdf". -/
theorem duplicate_task_emission_skips_witness :
    (create_task_file [] "My Invoice.pdf" "t1" 7 "7.0 B" (fun _ => true)).2.1 = true ∧
    (create_task_file (create_task_file [] "My Invoice.pdf" "t1" 7 "7.0 B" (fun _ => true)).1
        "My Invoice.pdf" "t2" 7 "7.0 B" (fun _ => true)).1
      = (create_task_file [] "My Invoice.pdf" "t1" 7 "7.0 B" (fun _ => true)).1 ∧
    (create_task_file (create_task_file [] "My Invoice.pdf" "t1" 7 "7.0 B" (fun _ => true)).1
        "My Invoice.pdf" "t2" 7 "7.0 B" (fun _ => true)).2.1 = false ∧
    (create_task_file (create_task_file [] "My Invoice.pdf" "t1" 7 "7.0 B" (fun _ => true)).1
        "My Invoice.pdf" "t2" 7 "7.0 B" (fun _ => true)).2.2
      = [{ level := .warning,
           msg := "Task already exists: " ++ task_filename "My Invoice.pdf" }] ∧
    (create_task_file (create_task_file [] "My Invoice.pdf" "t1" 7 "7.0 B" (fun _ => true)).1
        "My Invoice.pdf" "t2" 7 "7.0 B" (fun _ => true)).1.countP
        (fun p => p.1 == taskPath "My Invoice.pdf") = 1 :=
  duplicate_task_emission_skips [] "My Invoice.pdf" "t1" "t2" 7 7 "7.0 B" "7.0 B"
    (fun _ => true) rfl rfl

end FileWatcher
namespace FileWatcher

lemma processOne_preserves_mem (ts : String) (sb : String → Nat)
    (sh : String → String) (wOk : String → Bool)
    (acc : List String × FS) (fn x : String) (hx : x ∈ acc.1) :
    x ∈ (processOne ts sb sh wOk acc fn).1 := by
  unfold processOne
  by_cases hh : pyStartsWith fn "." = true
  · rw [if_pos hh]; exact hx
  · rw [if_neg hh]
    by_cases hc : acc.1.contains fn = true
    · rw [if_pos hc]; exact hx
    · rw [if_neg hc, ite_self]
      exact List.mem_insert_iff.mpr (Or.inr hx)

lemma foldl_processOne_preserves_mem (ts : String) (sb : String → Nat)
    (sh : String → String) (wOk : String → Bool) :
    ∀ (l : List String) (acc : List String × FS) (x : String), x ∈ acc.1 →
      x ∈ (l.foldl (processOne ts sb sh wOk) acc).1 := by
  intro l
  induction l with
  | nil => intro acc x hx; exact hx
  | cons g gs ih =>
    intro acc x hx
    rw [List.foldl_cons]
    exact ih _ x (processOne_preserves_mem ts sb sh wOk acc g x hx)

lemma foldl_processOne_mem_of_listed (ts : String) (sb : String → Nat)
    (sh : String → String) (wOk : String → Bool) :
    ∀ (l : List String) (acc : List String × FS) (f : String), f ∈ l →
      pyStartsWith f "." = false → f ∈ (l.foldl (processOne ts sb sh wOk) acc).1 := by
  intro l
  induction l with
  | nil => intro acc f hf; cases hf
  | cons g gs ih =>
    intro acc f hf hh
    rw [List.foldl_cons]
    rcases List.mem_cons.mp hf with hfg | hfgs
    · subst hfg
      apply foldl_processOne_preserves_mem
      unfold processOne
      rw [if_neg (by rw [hh]; exact Bool.false_ne_true)]
      by_cases hc : acc.1.contains f = true
      · rw [if_pos hc]
        exact List.elem_iff.mp hc
      · rw [if_neg hc, ite_self]
        exact List.mem_insert_self f acc.1
    · exact ih _ f hfgs hh

lemma initial_scan_preserves_mem :
    ∀ (l proc : List String) (x : String), x ∈ proc → x ∈ initial_scan l proc := by
  intro l
  induction l with
  | nil => intro proc x hx; exact hx
  | cons g gs ih =>
    intro proc x hx
    unfold initial_scan
    rw [List.foldl_cons]
    by_cases hh : pyStartsWith g "." = true
    · rw [if_pos hh]
      exact ih proc x hx
    · rw [if_neg hh]
      exact ih _ x (List.mem_insert_iff.mpr (Or.inr hx))

/-- C6: in every poll cycle, a listed non-hidden filename not yet seen
ends up in the seen-set whether or not its task emission succeeded, and
the seen-set is monotonic: neither the poll cycle nor the initial scan
ever removes a member. -/
theorem watcher_seen_set_monotone
    (cf proc ifl : List String) (fs : FS) (ts : String) (sb : String → Nat)
    (sh : String → String) (wOk : String → Bool) (f x : String)
    (hf : f ∈ cf) (hh : pyStartsWith f "." = false) (hx : x ∈ proc) :
    f ∈ (check_for_new_files cf proc fs ts sb sh wOk).1 ∧
    x ∈ (check_for_new_files cf proc fs ts sb sh wOk).1 ∧
    x ∈ initial_scan ifl proc := by
  refine ⟨?_, ?_, initial_scan_preserves_mem ifl proc x hx⟩
  · exact foldl_processOne_mem_of_listed ts sb sh wOk cf (proc, fs) f hf hh
  · exact foldl_processOne_preserves_mem ts sb sh wOk cf (proc, fs) x hx

/-- C6 witness: a cycle listing "doc.txt" with "old.txt" already seen,
and an emitter whose write fails. -/
theorem watcher_seen_set_monotone_witness :
    "doc.txt" ∈ (check_for_new_files ["doc.txt"] ["old.txt"] [] "t" (fun _ => 0)
      (fun _ => "0.0 B") (fun _ => false)).1 ∧
    "old.txt" ∈ (check_for_new_files ["doc.txt"] ["old.txt"] [] "t" (fun _ => 0)
      (fun _ => "0.0 B") (fun _ => false)).1 ∧
    "old.txt" ∈ initial_scan ["seed.txt"] ["old.txt"] :=
  watcher_seen_set_monotone ["doc.txt"] ["old.txt"] ["seed.txt"] [] "t" (fun _ => 0)
    (fun _ => "0.0 B") (fun _ => false) "doc.txt" "old.txt"
    (by decide) (by decide) (by decide)

end FileWatcher
namespace RotateLogs

lemma parseStep_header (s : ParseState) (l : String)
    (hs : s.sec = Sect.header) (hl : pyIn "## Activity Log" l = false) :
    parseStep s l = { s with headerLines := s.headerLines ++ [l] } := by
  simp [parseStep, hl, hs]

lemma foldl_header : ∀ (L : List String) (s : ParseState),
    s.sec = Sect.header → (∀ l ∈ L, pyIn "## Activity Log" l = false) →
    L.foldl parseStep s = { s with headerLines := s.headerLines ++ L } := by
  intro L
  induction L with
  | nil => intro s hs _; simp
  | cons l ls ih =>
    intro s hs hL
    rw [List.foldl_cons, parseStep_header s l hs (hL l (List.mem_cons_self l ls))]
    rw [ih { s with headerLines := s.headerLines ++ [l] } hs
      (fun x hx => hL x (List.mem_cons_of_mem l hx))]
    simp

lemma parseStep_marker (s : ParseState) (m : String)
    (hm : pyIn "## Activity Log" m = true) :
    parseStep s m = { s with sec := Sect.activity } := by
  simp [parseStep, hm]

lemma goodHeaderLine_split (h : String) (hh : goodHeaderLine h = true) :
    pyStartsWith h "###" = true ∧ (parse_date_from_header h).isSome = true ∧
    pyIn "## Activity Log" h = false ∧ pyIn "## Log Entry Template" h = false ∧
    pyIn "## Notes" h = false := by
  rw [goodHeaderLine] at hh
  simp only [Bool.and_eq_true, Bool.not_eq_true'] at hh
  exact ⟨hh.1.1.1.1, hh.1.1.1.2, hh.1.1.2, hh.1.2, hh.2⟩

lemma goodBodyLine_split (l : String) (hl : goodBodyLine l = true) :
    pyStartsWith l "###" = false ∧ pyIn "## Activity Log" l = false ∧
    pyIn "## Log Entry Template" l = false ∧ pyIn "## Notes" l = false := by
  rw [goodBodyLine] at hl
  simp only [Bool.and_eq_true, Bool.not_eq_true'] at hl
  exact ⟨hl.1.1.1, hl.1.1.2, hl.1.2, hl.2⟩

lemma parseStep_secHeader (s : ParseState) (h : String)
    (hs : s.sec = Sect.activity) (hh : goodHeaderLine h = true) :
    parseStep s h = { s with entries := savePending s,
                             curDate := parse_date_from_header h,
                             curEntry := [h] } := by
  obtain ⟨h1, _, h3, h4, h5⟩ := goodHeaderLine_split h hh
  simp [parseStep, h1, h3, h4, h5, hs]

lemma parseStep_body (s : ParseState) (l d : String)
    (hs : s.sec = Sect.activity) (hd : s.curDate = some d) (hne : d ≠ "")
    (hl : goodBodyLine l = true) :
    parseStep s l = { s with curEntry := s.curEntry ++ [l] } := by
  obtain ⟨h1, h2, h3, h4⟩ := goodBodyLine_split l hl
  simp [parseStep, h1, h2, h3, h4, hs, hd, hne]

lemma foldl_body : ∀ (B : List String) (s : ParseState) (d : String),
    s.sec = Sect.activity → s.curDate = some d → d ≠ "" →
    (∀ l ∈ B, goodBodyLine l = true) →
    B.foldl parseStep s = { s with curEntry := s.curEntry ++ B } := by
  intro B
  induction B with
  | nil => intro s d _ _ _ _; simp
  | cons l ls ih =>
    intro s d hs hd hne hB
    rw [List.foldl_cons, parseStep_body s l d hs hd hne (hB l (List.mem_cons_self l ls))]
    rw [ih { s with curEntry := s.curEntry ++ [l] } d hs hd hne
      (fun x hx => hB x (List.mem_cons_of_mem l hx))]
    simp

lemma matchDateAt_ne_empty : ∀ (cs : List Char) (d : String),
    matchDateAt cs = some d → d ≠ "" := by
  intro cs d h
  unfold matchDateAt at h
  split at h
  · split at h
    · cases h
      intro he
      have := congrArg String.data he
      simp at this
    · cases h
  · cases h

lemma findDate_ne_empty : ∀ (cs : List Char) (d : String),
    findDate cs = some d → d ≠ "" := by
  intro cs
  induction cs with
  | nil => intro d h; cases h
  | cons c rest ih =>
    intro d h
    rw [findDate] at h
    cases hm : matchDateAt (c :: rest) with
    | some d2 =>
      rw [hm] at h
      cases h
      exact matchDateAt_ne_empty _ _ hm
    | none =>
      rw [hm] at h
      exact ih d h

lemma keysOf_append (E : EntryMap) (d : String) (ls : List String) :
    keysOf (E ++ [(d, ls)]) = keysOf E ++ [d] := by
  simp [keysOf]

lemma extendEntry_fresh (E : EntryMap) (d : String) (ls : List String)
    (hd : d ∉ keysOf E) : extendEntry E d ls = E ++ [(d, ls)] := by
  rw [extendEntry, if_neg]
  intro hc
  exact hd (List.elem_iff.mp hc)

end RotateLogs
namespace RotateLogs

lemma savePending_some (s : ParseState) (d : String) (hd : s.curDate = some d)
    (hne : d ≠ "") (hce : s.curEntry ≠ []) :
    savePending s = extendEntry s.entries d s.curEntry := by
  unfold savePending
  rw [hd]
  exact if_pos ⟨hne, hce⟩

lemma savePending_none (s : ParseState) (hd : s.curDate = none) :
    savePending s = s.entries := by
  unfold savePending
  rw [hd]

lemma secDate_eq (p : String × List String)
    (hh : goodHeaderLine p.1 = true) :
    parse_date_from_header p.1 = some (secDate p) ∧ secDate p ≠ "" := by
  obtain ⟨-, h2, -, -, -⟩ := goodHeaderLine_split p.1 hh
  cases heq : parse_date_from_header p.1 with
  | none => rw [heq] at h2; cases h2
  | some dd =>
    have hsd : secDate p = dd := by simp [secDate, heq]
    refine ⟨by rw [hsd], ?_⟩
    rw [hsd]
    exact findDate_ne_empty _ _ heq

lemma runSections : ∀ (ss : List (String × List String)) (s : ParseState) (d : String),
    s.sec = Sect.activity → s.curDate = some d → d ≠ "" → s.curEntry ≠ [] →
    sectionsOK ss = true → (d :: ss.map secDate).Nodup →
    (∀ x ∈ d :: ss.map secDate, x ∉ keysOf s.entries) →
    ((ss.map secLines).flatten.foldl parseStep s).headerLines = s.headerLines ∧
    ((ss.map secLines).flatten.foldl parseStep s).footerLines = s.footerLines ∧
    savePending ((ss.map secLines).flatten.foldl parseStep s) =
      s.entries ++ (d, s.curEntry) :: ss.map (fun p => (secDate p, secLines p)) := by
  intro ss
  induction ss with
  | nil =>
    intro s d hs hd hne hce hok hnd hdisj
    refine ⟨rfl, rfl, ?_⟩
    have h3 : savePending s = s.entries ++ [(d, s.curEntry)] := by
      rw [savePending_some s d hd hne hce,
        extendEntry_fresh s.entries d s.curEntry (hdisj d (List.mem_cons_self d _))]
    exact h3
  | cons p ps ih =>
    intro s d hs hd hne hce hok hnd hdisj
    rw [sectionsOK, List.all_cons, Bool.and_eq_true] at hok
    obtain ⟨hp, hps⟩ := hok
    rw [Bool.and_eq_true] at hp
    obtain ⟨hph, hpb⟩ := hp
    obtain ⟨hpd, hpdne⟩ := secDate_eq p hph
    have hsave : savePending s = s.entries ++ [(d, s.curEntry)] := by
      rw [savePending_some s d hd hne hce,
        extendEntry_fresh s.entries d s.curEntry (hdisj d (List.mem_cons_self d _))]
    simp only [List.map_cons, List.flatten_cons, secLines, List.cons_append,
      List.foldl_cons]
    rw [parseStep_secHeader s p.1 hs hph]
    rw [List.foldl_append]
    rw [foldl_body p.2
      { s with entries := savePending s, curDate := parse_date_from_header p.1,
               curEntry := [p.1] }
      (secDate p) hs hpd hpdne (List.all_eq_true.mp hpb)]
    rw [hsave, hpd]
    have hih := ih
      { s with entries := s.entries ++ [(d, s.curEntry)],
               curDate := some (secDate p), curEntry := [p.1] ++ p.2 }
      (secDate p) hs rfl hpdne (by simp)
      (by rw [sectionsOK]; exact hps)
      ((List.nodup_cons.mp hnd).2)
      (by
        intro x hx
        rw [keysOf_append]
        intro hmem
        rcases List.mem_append.mp hmem with hx1 | hx2
        · exact hdisj x (List.mem_cons_of_mem d hx) hx1
        · rcases List.mem_singleton.mp hx2 with rfl
          exact (List.nodup_cons.mp hnd).1 hx)
    refine ⟨hih.1, hih.2.1, ?_⟩
    rw [hih.2.2]
    simp [List.append_assoc, secLines]

end RotateLogs
namespace RotateLogs

lemma runFromStart (ss : List (String × List String)) (s : ParseState)
    (hs : s.sec = Sect.activity) (hd : s.curDate = none) (_hce : s.curEntry = [])
    (hE : s.entries = [])
    (hok : sectionsOK ss = true) (hnd : (ss.map secDate).Nodup) :
    ((ss.map secLines).flatten.foldl parseStep s).headerLines = s.headerLines ∧
    ((ss.map secLines).flatten.foldl parseStep s).footerLines = s.footerLines ∧
    savePending ((ss.map secLines).flatten.foldl parseStep s) =
      ss.map (fun p => (secDate p, secLines p)) := by
  cases ss with
  | nil =>
    refine ⟨rfl, rfl, ?_⟩
    exact (savePending_none s hd).trans hE
  | cons p ps =>
    rw [sectionsOK, List.all_cons, Bool.and_eq_true] at hok
    obtain ⟨hp, hps⟩ := hok
    rw [Bool.and_eq_true] at hp
    obtain ⟨hph, hpb⟩ := hp
    obtain ⟨hpd, hpdne⟩ := secDate_eq p hph
    simp only [List.map_cons, List.flatten_cons, secLines, List.cons_append,
      List.foldl_cons]
    rw [parseStep_secHeader s p.1 hs hph]
    rw [List.foldl_append]
    rw [foldl_body p.2
      { s with entries := savePending s, curDate := parse_date_from_header p.1,
               curEntry := [p.1] }
      (secDate p) hs hpd hpdne (List.all_eq_true.mp hpb)]
    rw [savePending_none s hd, hE, hpd]
    have hih := runSections ps
      { s with entries := [], curDate := some (secDate p), curEntry := [p.1] ++ p.2 }
      (secDate p) hs rfl hpdne (by simp)
      (by rw [sectionsOK]; exact hps)
      hnd
      (by intro x _; simp [keysOf])
    refine ⟨hih.1, hih.2.1, ?_⟩
    rw [hih.2.2]
    simp [secLines]

/-- C8 (amended): for a document built from a header whose lines do not
contain the activity marker, the marker line, and a run of well-formed,
distinctly dated activity sections (and no footer), parsing recovers the
header, one bucket per section in original order, and an empty footer;
so concatenating header, buckets and footer reproduces the original
document with the consumed "## Activity Log" marker line removed. -/
theorem parse_reassemble_wellformed (H : List String) (m : String)
    (ss : List (String × List String))
    (hH : H.all (fun l => !pyIn "## Activity Log" l) = true)
    (hm : pyIn "## Activity Log" m = true)
    (hss : sectionsOK ss = true)
    (hnd : (ss.map secDate).Nodup) :
    read_system_log (H ++ m :: (ss.map secLines).flatten)
      = (H, ss.map (fun p => (secDate p, secLines p)), []) ∧
    reassemble (H ++ m :: (ss.map secLines).flatten)
      = H ++ (ss.map secLines).flatten := by
  have hHf : ∀ l ∈ H, pyIn "## Activity Log" l = false := by
    intro l hl
    simpa using List.all_eq_true.mp hH l hl
  have hfold : (H ++ m :: (ss.map secLines).flatten).foldl parseStep initState
      = ((ss.map secLines).flatten).foldl parseStep
          { sec := Sect.activity, curDate := none, curEntry := [],
            headerLines := H, entries := [], footerLines := [] } := by
    rw [List.foldl_append, foldl_header H initState rfl hHf, List.foldl_cons,
      parseStep_marker _ m hm]
    rfl
  have hrun := runFromStart ss
    { sec := Sect.activity, curDate := none, curEntry := [], headerLines := H,
      entries := [], footerLines := [] } rfl rfl rfl rfl hss hnd
  have h1 : read_system_log (H ++ m :: (ss.map secLines).flatten)
      = (H, ss.map (fun p => (secDate p, secLines p)), []) := by
    simp only [read_system_log]
    rw [hfold, Prod.mk.injEq, Prod.mk.injEq]
    exact ⟨hrun.1, hrun.2.2, hrun.2.1⟩
  refine ⟨h1, ?_⟩
  simp only [reassemble, h1]
  simp only [List.map_map, List.append_nil]
  rfl

/-- C8 witness: a one-line header, the marker and a single dated
section. -/
theorem parse_reassemble_wellformed_witness :
    read_system_log (["# T"] ++ "## Activity Log" ::
        (([("### 2026-02-10", ["- x"])] : List (String × List String)).map secLines).flatten)
      = (["# T"],
         ([("### 2026-02-10", ["- x"])] : List (String × List String)).map
           (fun p => (secDate p, secLines p)), []) ∧
    reassemble (["# T"] ++ "## Activity Log" ::
        (([("### 2026-02-10", ["- x"])] : List (String × List String)).map secLines).flatten)
      = ["# T"] ++
        (([("### 2026-02-10", ["- x"])] : List (String × List String)).map secLines).flatten :=
  parse_reassemble_wellformed ["# T"] "## Activity Log" [("### 2026-02-10", ["- x"])]
    (by decide) (by decide) (by decide) (by decide)

end RotateLogs
